import Mathlib

set_option maxRecDepth 8000
set_option maxHeartbeats 1000000

/-!
Verification of the streaming-search pipeline of this repository.

The authoritative source for the pipeline is `helpers/handleSearch.ts`
(the nine-parameter variant that takes `setParsedResults`, which is the
one `SearchInterface.tsx` calls), together with `handleSubmit` /
`handleNameClick` in `components/SearchInterface.tsx`.

The embedding models:
  * the JavaScript string operations used by the code (`trim`,
    `startsWith`, `endsWith`, the global regex replace of code fences,
    `encodeURIComponent`);
  * `JSON.parse` as a recursive-descent parser over a `Json` value type
    (numbers keep their source lexeme; `JSON.parse` throwing is an
    `Except.error` carrying the parser's message);
  * `JSON.stringify(·, null, 2)` (numbers are re-emitted with their
    source lexeme rather than re-formatted as IEEE doubles; nothing
    proved below inspects the stringified text);
  * `handleSearch` itself as a big-step function from its inputs and an
    environment (fetch outcome, stream chunks) to the ordered list of
    observable actions it performs plus its return value, and also as a
    list of segments (the synchronous blocks between `await` points) so
    that interleavings of two invocations can be examined.
-/

/-! ## JavaScript string primitives -/

/-- Whitespace for `String.prototype.trim`: the ECMAScript WhiteSpace and
LineTerminator code points. -/
def isJsWs (c : Char) : Bool :=
  let n := c.toNat
  n == 9 || n == 10 || n == 11 || n == 12 || n == 13 || n == 32 || n == 160 ||
  n == 5760 || (8192 ≤ n && n ≤ 8202) || n == 8232 || n == 8233 ||
  n == 8239 || n == 8287 || n == 12288 || n == 65279

/-- Drop trailing characters satisfying `p` (via reverse). -/
def dropTrailing (p : Char → Bool) (l : List Char) : List Char :=
  (l.reverse.dropWhile p).reverse

/-- Character-list body of `String.prototype.trim`. -/
def trimList (l : List Char) : List Char :=
  dropTrailing isJsWs (l.dropWhile isJsWs)

/-- The JavaScript `query.trim()`. -/
def jsTrim (s : String) : String := String.mk (trimList s.data)

/-- The JavaScript `s.startsWith(t)`. -/
def jsStartsWith (s t : String) : Bool := t.data.isPrefixOf s.data

/-- The JavaScript `s.endsWith(t)`. -/
def jsEndsWith (s t : String) : Bool := t.data.isSuffixOf s.data

/-- The backtick character (96). -/
def btick : Char := Char.ofNat 96

/-- The seven characters of the fence marker followed by `json`. -/
def fenceJsonChars : List Char := [btick, btick, btick, 'j', 's', 'o', 'n']

/-- The three characters of a bare code fence. -/
def fenceChars : List Char := [btick, btick, btick]

/-- Body of the global regex replace `raw.replace(/```json|```/g, "")`:
scan left to right, at each position try the `json` fence first (regex
alternation is leftmost), else the bare fence, else keep the character.
Fuel bounds the recursion; each step consumes at least one character. -/
def stripFences (fuel : Nat) (l : List Char) : List Char :=
  match fuel with
  | 0 => l
  | fuel + 1 =>
    if fenceJsonChars.isPrefixOf l then stripFences fuel (l.drop 7)
    else if fenceChars.isPrefixOf l then stripFences fuel (l.drop 3)
    else
      match l with
      | [] => []
      | c :: cs => c :: stripFences fuel cs

/-- The cleaning step of the parse block:
`raw.replace(/```json|```/g, "").trim()`. -/
def cleanText (raw : String) : String :=
  String.mk (trimList (stripFences (raw.data.length + 1) raw.data))

/-- Uppercase hexadecimal digit, as produced by `encodeURIComponent`. -/
def hexUpper (n : Nat) : Char :=
  if n < 10 then Char.ofNat (48 + n) else Char.ofNat (55 + n)

/-- UTF-8 bytes of a character, used by `encodeURIComponent`. -/
def utf8Bytes (c : Char) : List Nat :=
  let n := c.toNat
  if n < 128 then [n]
  else if n < 2048 then [192 + n / 64, 128 + n % 64]
  else if n < 65536 then [224 + n / 4096, 128 + (n / 64) % 64, 128 + n % 64]
  else [240 + n / 262144, 128 + (n / 4096) % 64, 128 + (n / 64) % 64, 128 + n % 64]

/-- Characters `encodeURIComponent` leaves unescaped:
`A-Z a-z 0-9 - _ . ! ~ * ' ( )`. -/
def uriUnreserved (c : Char) : Bool :=
  c.isAlpha || c.isDigit ||
  (let n := c.toNat
   n == 45 || n == 95 || n == 46 || n == 33 || n == 126 || n == 42 ||
   n == 39 || n == 40 || n == 41)

/-- The JavaScript `encodeURIComponent`. -/
def encodeURIComponent (s : String) : String :=
  String.mk
    ((s.data.map fun c =>
      if uriUnreserved c then [c]
      else ((utf8Bytes c).map fun b => ['%', hexUpper (b / 16), hexUpper (b % 16)]).flatten).flatten)

/-! ## JSON values and `JSON.parse` -/

/-- Parsed JSON values. Numbers keep their source lexeme (the claims never
depend on numeric magnitude beyond zero-ness, which the lexeme decides). -/
inductive Json where
  | null
  | bool (b : Bool)
  | num (lex : String)
  | str (s : String)
  | arr (elems : List Json)
  | obj (fields : List (String × Json))

/-- JSON (RFC 8259) insignificant whitespace. -/
def jsonWsB (c : Char) : Bool :=
  c = ' ' || c = '\t' || c = '\n' || c = Char.ofNat 13

/-- Skip JSON whitespace. -/
def skipWs (l : List Char) : List Char := l.dropWhile jsonWsB

/-- Value of a hexadecimal digit. -/
def hexVal (c : Char) : Option Nat :=
  if c.isDigit then some (c.toNat - 48)
  else if 'a' ≤ c ∧ c ≤ 'f' then some (c.toNat - 87)
  else if 'A' ≤ c ∧ c ≤ 'F' then some (c.toNat - 55)
  else none

/-- Single-character escape sequences of JSON strings. -/
def simpleEsc (c : Char) : Option Char :=
  if c = '"' then some '"'
  else if c = '\\' then some '\\'
  else if c = '/' then some '/'
  else if c = 'b' then some (Char.ofNat 8)
  else if c = 'f' then some (Char.ofNat 12)
  else if c = 'n' then some '\n'
  else if c = 'r' then some (Char.ofNat 13)
  else if c = 't' then some '\t'
  else none

/-- Parse the remainder of a JSON string after the opening quote.
Surrogate pairs in `\u` escapes are combined into the encoded code point;
a lone surrogate (representable in a JavaScript UTF-16 string but not in
a Lean `Char`) is replaced by U+FFFD — no claim involves such strings. -/
def parseStringRest : Nat → List Char → Except String (String × List Char)
  | 0, _ => .error "string nesting exhausted"
  | _ + 1, [] => .error "Unterminated string in JSON"
  | fuel + 1, c :: cs =>
    if c = '"' then .ok ("", cs)
    else if c = '\\' then
      match cs with
      | [] => .error "Bad escape in JSON"
      | e :: cs2 =>
        match simpleEsc e with
        | some d =>
          match parseStringRest fuel cs2 with
          | .ok (s, rest) => .ok (String.mk (d :: s.data), rest)
          | .error msg => .error msg
        | none =>
          if e = 'u' then
            match cs2 with
            | h1 :: h2 :: h3 :: h4 :: cs3 =>
              match hexVal h1, hexVal h2, hexVal h3, hexVal h4 with
              | some a, some b, some c2, some d2 =>
                let n := ((a * 16 + b) * 16 + c2) * 16 + d2
                if 55296 ≤ n ∧ n ≤ 56319 then
                  match cs3 with
                  | x :: u :: g1 :: g2 :: g3 :: g4 :: cs4 =>
                    match hexVal g1, hexVal g2, hexVal g3, hexVal g4 with
                    | some a2, some b2, some c3, some d3 =>
                      let m := ((a2 * 16 + b2) * 16 + c3) * 16 + d3
                      if x = '\\' ∧ u = 'u' ∧ 56320 ≤ m ∧ m ≤ 57343 then
                        let cp := 65536 + (n - 55296) * 1024 + (m - 56320)
                        match parseStringRest fuel cs4 with
                        | .ok (s, rest) => .ok (String.mk (Char.ofNat cp :: s.data), rest)
                        | .error msg => .error msg
                      else
                        match parseStringRest fuel cs3 with
                        | .ok (s, rest) => .ok (String.mk (Char.ofNat 65533 :: s.data), rest)
                        | .error msg => .error msg
                    | _, _, _, _ =>
                      match parseStringRest fuel cs3 with
                      | .ok (s, rest) => .ok (String.mk (Char.ofNat 65533 :: s.data), rest)
                      | .error msg => .error msg
                  | _ =>
                    match parseStringRest fuel cs3 with
                    | .ok (s, rest) => .ok (String.mk (Char.ofNat 65533 :: s.data), rest)
                    | .error msg => .error msg
                else
                  if 56320 ≤ n ∧ n ≤ 57343 then
                    match parseStringRest fuel cs3 with
                    | .ok (s, rest) => .ok (String.mk (Char.ofNat 65533 :: s.data), rest)
                    | .error msg => .error msg
                  else
                    match parseStringRest fuel cs3 with
                    | .ok (s, rest) => .ok (String.mk (Char.ofNat n :: s.data), rest)
                    | .error msg => .error msg
              | _, _, _, _ => .error "Bad Unicode escape in JSON"
            | _ => .error "Bad Unicode escape in JSON"
          else .error "Bad escape in JSON"
    else if c.toNat < 32 then .error "Bad control character in JSON string"
    else
      match parseStringRest fuel cs with
      | .ok (s, rest) => .ok (String.mk (c :: s.data), rest)
      | .error msg => .error msg

/-- Longest digit run and the remainder. -/
def digitSpan (l : List Char) : List Char × List Char :=
  (l.takeWhile Char.isDigit, l.dropWhile Char.isDigit)

/-- Exponent part of a JSON number lexeme; `acc` is the lexeme so far. -/
def numExpPart (acc : List Char) (l : List Char) :
    Except String (List Char × List Char) :=
  match l with
  | [] => .ok (acc, [])
  | e :: rest =>
    if e = 'e' ∨ e = 'E' then
      let sgnRest : List Char × List Char :=
        match rest with
        | s :: rest2 => if s = '+' ∨ s = '-' then ([s], rest2) else ([], rest)
        | [] => ([], rest)
      match sgnRest.2 with
      | d :: _ =>
        if d.isDigit then
          let ds := digitSpan sgnRest.2
          .ok (acc ++ e :: sgnRest.1 ++ ds.1, ds.2)
        else .error "Bad exponent in JSON number"
      | [] => .error "Bad exponent in JSON number"
    else .ok (acc, l)

/-- Fraction part of a JSON number lexeme; `acc` is the lexeme so far. -/
def numFracPart (acc : List Char) (l : List Char) :
    Except String (List Char × List Char) :=
  match l with
  | [] => .ok (acc, [])
  | p :: rest =>
    if p = '.' then
      match rest with
      | d :: _ =>
        if d.isDigit then
          let ds := digitSpan rest
          numExpPart (acc ++ p :: ds.1) ds.2
        else .error "Bad fraction in JSON number"
      | [] => .error "Bad fraction in JSON number"
    else numExpPart acc l

/-- Lexeme of a JSON number (the head of `l` is `-` or a digit). -/
def numLexeme (l : List Char) : Except String (List Char × List Char) :=
  let negRest : List Char × List Char :=
    match l with
    | c :: cs => if c = '-' then ([c], cs) else ([], l)
    | [] => ([], l)
  match negRest.2 with
  | [] => .error "Unterminated number in JSON"
  | c :: cs =>
    if c = '0' then numFracPart (negRest.1 ++ [c]) cs
    else if c.isDigit then
      let ds := digitSpan (c :: cs)
      numFracPart (negRest.1 ++ ds.1) ds.2
    else .error "Unexpected character in JSON number"

/-- Parse a JSON number (the head of `l` is `-` or a digit). -/
def parseNumber (l : List Char) : Except String (Json × List Char) :=
  match numLexeme l with
  | .ok (lex, rest) => .ok (.num (String.mk lex), rest)
  | .error msg => .error msg

mutual

/-- Parse one JSON value; the head of `l` is its first (non-whitespace)
character. Dispatch is on that character, as in a JSON parser. -/
def parseValue : Nat → List Char → Except String (Json × List Char)
  | 0, _ => .error "JSON input too deeply nested"
  | _ + 1, [] => .error "Unexpected end of JSON input"
  | fuel + 1, c :: cs =>
    if c = 'n' then
      if ['u', 'l', 'l'].isPrefixOf cs then .ok (.null, cs.drop 3)
      else .error "Unexpected token in JSON"
    else if c = 't' then
      if ['r', 'u', 'e'].isPrefixOf cs then .ok (.bool true, cs.drop 3)
      else .error "Unexpected token in JSON"
    else if c = 'f' then
      if ['a', 'l', 's', 'e'].isPrefixOf cs then .ok (.bool false, cs.drop 4)
      else .error "Unexpected token in JSON"
    else if c = '"' then
      match parseStringRest fuel cs with
      | .ok (s, rest) => .ok (.str s, rest)
      | .error msg => .error msg
    else if c = '[' then
      match skipWs cs with
      | ']' :: rest => .ok (.arr [], rest)
      | cs2 => parseElems fuel cs2 []
    else if c = '{' then
      match skipWs cs with
      | '}' :: rest => .ok (.obj [], rest)
      | cs2 => parseMembers fuel cs2 []
    else if c = '-' ∨ c.isDigit then parseNumber (c :: cs)
    else .error "Unexpected token in JSON"

/-- Parse the elements of a non-empty JSON array body (accumulator is
reversed). -/
def parseElems : Nat → List Char → List Json → Except String (Json × List Char)
  | 0, _, _ => .error "JSON input too deeply nested"
  | fuel + 1, l, acc =>
    match parseValue fuel l with
    | .error msg => .error msg
    | .ok (v, rest) =>
      match skipWs rest with
      | ',' :: rest2 => parseElems fuel (skipWs rest2) (v :: acc)
      | ']' :: rest2 => .ok (.arr (v :: acc).reverse, rest2)
      | _ => .error "Expected comma or closing bracket in JSON array"

/-- Parse the members of a non-empty JSON object body (accumulator is
reversed). -/
def parseMembers : Nat → List Char → List (String × Json) →
    Except String (Json × List Char)
  | 0, _, _ => .error "JSON input too deeply nested"
  | fuel + 1, l, acc =>
    match l with
    | '"' :: cs =>
      match parseStringRest fuel cs with
      | .error msg => .error msg
      | .ok (k, rest) =>
        match skipWs rest with
        | ':' :: rest2 =>
          match parseValue fuel (skipWs rest2) with
          | .error msg => .error msg
          | .ok (v, rest3) =>
            match skipWs rest3 with
            | ',' :: rest4 => parseMembers fuel (skipWs rest4) ((k, v) :: acc)
            | '}' :: rest4 => .ok (.obj ((k, v) :: acc).reverse, rest4)
            | _ => .error "Expected comma or closing brace in JSON object"
        | _ => .error "Expected colon in JSON object"
    | _ => .error "Expected string key in JSON object"

end

/-- The JavaScript `JSON.parse`: an `Except.error` models the thrown
`SyntaxError`, carrying the parser's message. -/
def jsonParseE (s : String) : Except String Json :=
  match parseValue (2 * (s.data.length + 1)) (skipWs s.data) with
  | .error msg => .error msg
  | .ok (v, rest) =>
    if skipWs rest = [] then .ok v
    else .error "Unexpected non-whitespace character after JSON"

example : jsonParseE "[1, 2]" = .ok (.arr [.num "1", .num "2"]) := by rfl
example : jsonParseE " [\"a\", null, true, -1.5e3] " =
    .ok (.arr [.str "a", .null, .bool true, .num "-1.5e3"]) := by rfl
example : (jsonParseE "[1,").isOk = false := by rfl
example : jsonParseE "[\x7b\"summary\":\"x\"\x7d]" =
    .ok (.arr [.obj [("summary", .str "x")]]) := by rfl
example : (jsonParseE "00").isOk = false := by rfl

/-! ## JavaScript value semantics used by `handleSearch` -/

/-- Last binding of a key (`JSON.parse` keeps the last duplicate, and
property lookup sees that one). -/
def lookupLast (fields : List (String × Json)) (key : String) : Option Json :=
  fields.foldl (fun acc kv => if kv.1 = key then some kv.2 else acc) none

/-- The JavaScript optional-chained property access `j?.key`: `none`
models `undefined`. -/
def jsGet (j : Json) (key : String) : Option Json :=
  match j with
  | .obj fields => lookupLast fields key
  | _ => none

/-- Whether a JSON number lexeme denotes zero: by the JSON number grammar
this holds exactly when every mantissa digit is `0`. -/
def numLexIsZero (lex : String) : Bool :=
  ((lex.data.takeWhile fun c => ¬(c = 'e' ∨ c = 'E')).filter Char.isDigit).all (· = '0')

/-- JavaScript falsiness of a JSON value (`undefined` is handled by the
callers through `Option`; `NaN` cannot arise from `JSON.parse`). -/
def jsFalsy : Json → Bool
  | .null => true
  | .bool b => !b
  | .num lex => numLexIsZero lex
  | .str s => s = ""
  | .arr _ => false
  | .obj _ => false

/-- JavaScript truthiness. -/
def jsTruthy (j : Json) : Bool := !jsFalsy j

/-- The zero-hit test of `handleSearch`:
`!data?.total || data.total === 0`. -/
def emptyTotal (data : Json) : Bool :=
  (match jsGet data "total" with
   | none => true
   | some v => jsFalsy v) ||
  (match jsGet data "total" with
   | some (.num lex) => numLexIsZero lex
   | _ => false)

/-! ## `JSON.stringify(·, null, 2)` -/

/-- Lowercase hexadecimal digit (as `JSON.stringify` emits in `\u00xx`). -/
def hexLower (n : Nat) : Char :=
  if n < 10 then Char.ofNat (48 + n) else Char.ofNat (87 + n)

/-- Escaping of one character inside a stringified JSON string. -/
def escJsonChar (c : Char) : List Char :=
  if c = '"' then ['\\', '"']
  else if c = '\\' then ['\\', '\\']
  else if c = Char.ofNat 8 then ['\\', 'b']
  else if c = Char.ofNat 12 then ['\\', 'f']
  else if c = '\n' then ['\\', 'n']
  else if c = Char.ofNat 13 then ['\\', 'r']
  else if c = '\t' then ['\\', 't']
  else if c.toNat < 32 then
    ['\\', 'u', '0', '0', hexLower (c.toNat / 16), hexLower (c.toNat % 16)]
  else [c]

/-- A double-quoted, escaped JSON string literal. -/
def quoteJson (s : String) : String :=
  String.mk ('"' :: (s.data.map escJsonChar).flatten ++ ['"'])

/-- Indentation of `2 * depth` spaces. -/
def indentStr (depth : Nat) : String := String.mk (List.replicate (2 * depth) ' ')

mutual

/-- Body of `JSON.stringify(value, null, 2)`. Numbers are re-emitted with
their source lexeme (a JavaScript engine would re-format the IEEE double;
nothing proved here inspects the resulting text). -/
def stringifyVal (depth : Nat) : Json → String
  | .null => "null"
  | .bool true => "true"
  | .bool false => "false"
  | .num lex => lex
  | .str s => quoteJson s
  | .arr [] => "[]"
  | .arr (x :: xs) =>
    "[\n" ++ String.intercalate ",\n" (stringifyItems (depth + 1) (x :: xs)) ++
    "\n" ++ indentStr depth ++ "]"
  | .obj [] => "\x7b\x7d"
  | .obj (f :: fs) =>
    "\x7b\n" ++ String.intercalate ",\n" (stringifyFields (depth + 1) (f :: fs)) ++
    "\n" ++ indentStr depth ++ "\x7d"

/-- Stringify the items of an array, each on its own indented line. -/
def stringifyItems (depth : Nat) : List Json → List String
  | [] => []
  | j :: rest => (indentStr depth ++ stringifyVal depth j) :: stringifyItems depth rest

/-- Stringify the members of an object, each on its own indented line. -/
def stringifyFields (depth : Nat) : List (String × Json) → List String
  | [] => []
  | (k, v) :: rest =>
    (indentStr depth ++ quoteJson k ++ ": " ++ stringifyVal depth v) ::
    stringifyFields depth rest

end

/-- The `JSON.stringify(data, null, 2)` call of `handleSearch`. -/
def jsonStringify2 (j : Json) : String := stringifyVal 0 j

/-! ## The `handleSearch` pipeline -/

/-- Outcome of the `fetch` to the search endpoint, as observed by
`handleSearch`: a parsed JSON body, a non-ok HTTP status (`res.statusText`
becomes the thrown `Error`'s message), a transport failure (the rejection's
message), or rejection with `AbortError` because the shared controller was
aborted while the request was in flight. -/
inductive FetchOutcome where
  | ok (body : Json)
  | httpError (statusText : String)
  | transportError (msg : String)
  | abortError

/-- Environment of one invocation: what the network and the model stream
return. `chunks` are the text pieces appended by the `for await` loop (the
`chunk.text()` / `String(chunk)` adapter result), in arrival order. -/
structure Env where
  fetch : FetchOutcome
  chunks : List String

/-- Observable actions of one invocation, in program order. `abortPrev`
is `abortRef.current?.abort()`; `fetchReq` marks the single `fetch` call;
`modelCall` marks `model.generateContentStream(prompt)`; `chunkUpdate`
is the `setSummary(raw)` performed on a chunk arrival inside the loop;
the `set…` actions are the React state setters passed to `handleSearch`. -/
inductive Act where
  | abortPrev
  | fetchReq (url : String)
  | modelCall (prompt : String)
  | setQuery (s : String)
  | setLoading (b : Bool)
  | setError (e : Option String)
  | setSummary (s : String)
  | chunkUpdate (s : String)
  | setResults (s : String)
  | setParsedResults (v : Json)
  | setParseError (e : Option String)

/-- The React state owned by `SearchInterface` that the pipeline writes. -/
structure UIState where
  query : String
  loading : Bool
  error : Option String
  summary : String
  results : String
  parsedResults : Json
  parseError : Option String

/-- Initial component state (`useState` defaults). -/
def initState : UIState :=
  { query := "", loading := false, error := none, summary := "", results := "",
    parsedResults := .arr [], parseError := none }

/-- Effect of one action on the state (`chunkUpdate` is the in-loop
`setSummary`; `abortPrev`, `fetchReq`, `modelCall` do not write state). -/
def applyAction (st : UIState) : Act → UIState
  | .abortPrev => st
  | .fetchReq _ => st
  | .modelCall _ => st
  | .setQuery s => { st with query := s }
  | .setLoading b => { st with loading := b }
  | .setError e => { st with error := e }
  | .setSummary s => { st with summary := s }
  | .chunkUpdate s => { st with summary := s }
  | .setResults s => { st with results := s }
  | .setParsedResults v => { st with parsedResults := v }
  | .setParseError e => { st with parseError := e }

/-- Run a list of actions over the state. -/
def runActions (st : UIState) (l : List Act) : UIState := l.foldl applyAction st

/-- The search request URL:
`${API_BASE_URL}/search?q=${encodeURIComponent(query)}&k=10`. -/
def searchUrl (base query : String) : String :=
  base ++ "/search?q=" ++ encodeURIComponent query ++ "&k=10"

/-- Message passed to `setError` in the catch block:
`err.message || "Something went wrong, check console for details."`. -/
def errorMessage (msg : String) : String :=
  if msg = "" then "Something went wrong, check console for details." else msg

/-- The prompt template of `handleSearch` with `docsJSON` interpolated. -/
def promptText (docsJSON : String) : String :=
  "\nSystem\nYou are summarising JP Morgan client–advisor data in a regulated environment.\n\nUser-provided JSON\n"
  ++ docsJSON ++
  "\n\nInstructions\n1. For every element in the elasticsearch.hits array:\n   · If \"conversation_id\" exists ⇒ summarise the conversation  \n   · If \"product_id\" exists ⇒ summarise the product\n2. Use the postgres.lookup data to map IDs to names when available.\n3. Do NOT introduce information that is not present in the input.\n4. Return strictly a JSON array where each element has the keys:\n   \x7b\n     \"type\":       \"conversation\" | \"product\",\n     \"id\":         string,\n     \"date\":       string|null,\n     \"advisor\":    \x7b \"id\": string|null, \"name\": string|null \x7d,\n     \"client\":     \x7b \"id\": string|null, \"name\": string|null \x7d,\n     \"product\":    \x7b \"id\": string|null, \"name\": string|null, \"type\": string|null \x7d,\n     \"summary\":    string,\n     \"topics\":     string[] (limit to 3-4 most relevant topics),\n     \"actions\":    string[]\n   \x7d\nOutput nothing except this JSON.\n"

/-- Synchronous prefix of a non-blank invocation, up to the suspension at
`fetch`: abort the in-flight request, install the new controller, reset
loading / error / summary, and issue the request. -/
def startSegment (query base : String) : List Act :=
  [.abortPrev, .setLoading true, .setError none, .setSummary "",
   .fetchReq (searchUrl base query)]

/-- Successive values of `raw` seen by the loop body, one per chunk. -/
def accumTexts (chunks : List String) : List String :=
  (chunks.foldl (fun acc c => (acc.1 ++ c, (acc.1 ++ c) :: acc.2)) ("", [])).2.reverse

/-- The `setSummary(raw)` updates performed while the stream is active. -/
def streamActions (chunks : List String) : List Act :=
  (accumTexts chunks).map .chunkUpdate

/-- The final accumulated text once the stream has finished. -/
def finalRaw (chunks : List String) : String := chunks.foldl (· ++ ·) ""

/-- The parse block of `handleSearch` (its reconciliation step): strip
code fences and whitespace, probe that the cleaned text starts with `[`
and ends with `]`, and only then `JSON.parse` it; a parse failure is
caught (logged only), and a failed probe falls through — both yield
`undefined` (`none`). -/
def reconcile (raw : String) : Option Json :=
  let cleaned := cleanText raw
  if jsStartsWith cleaned "[" && jsEndsWith cleaned "]" then
    match jsonParseE cleaned with
    | .ok parsed => some parsed
    | .error _ => none
  else none

/-- Big-step semantics of one `handleSearch` invocation: the ordered list
of actions it performs and its return value (`none` models `undefined`). -/
def handleSearchRun (query base : String) (env : Env) : List Act × Option Json :=
  if jsTrim query = "" then ([], none)
  else
    let pre := startSegment query base
    match env.fetch with
    | .abortError => (pre ++ [.setLoading false], none)
    | .httpError statusText =>
      (pre ++ [.setError (some (errorMessage statusText)), .setLoading false], none)
    | .transportError msg =>
      (pre ++ [.setError (some (errorMessage msg)), .setLoading false], none)
    | .ok data =>
      if emptyTotal data then
        (pre ++ [.setSummary "No documents found.", .setLoading false], none)
      else
        let docsJSON := jsonStringify2 data
        (pre ++ [.setResults docsJSON, .modelCall (promptText docsJSON)]
             ++ streamActions env.chunks ++ [.setLoading false],
         reconcile (finalRaw env.chunks))

/-- The caller's `if (parsed) setParsedResults(parsed)`. -/
def publishActions (ret : Option Json) : List Act :=
  match ret with
  | some v => if jsTruthy v then [.setParsedResults v] else []
  | none => []

/-- Big-step semantics of `handleSubmit`: clear `parsedResults` and
`parseError`, run `handleSearch`, then publish a truthy return value. -/
def handleSubmitRun (query base : String) (env : Env) : List Act :=
  [.setParsedResults (.arr []), .setParseError none]
  ++ (handleSearchRun query base env).1
  ++ publishActions (handleSearchRun query base env).2

/-- Segments of one invocation: the maximal synchronous blocks between
`await` suspension points. The fetch outcome and each chunk arrival start
a new segment; the caller's publish (resumption of `await handleSearch`)
is its own final segment. The stream segments and the publish segment do
not consult the abort signal — the source passes `controller.signal` to
`fetch` only, not to `model.generateContentStream`. -/
def invocationSegments (query base : String) (env : Env) : List (List Act) :=
  if jsTrim query = "" then []
  else
    [startSegment query base] ++
    match env.fetch with
    | .abortError => [[.setLoading false], []]
    | .httpError statusText =>
      [[.setError (some (errorMessage statusText)), .setLoading false], []]
    | .transportError msg =>
      [[.setError (some (errorMessage msg)), .setLoading false], []]
    | .ok data =>
      if emptyTotal data then [[.setSummary "No documents found.", .setLoading false], []]
      else
        let docsJSON := jsonStringify2 data
        [[.setResults docsJSON, .modelCall (promptText docsJSON)]]
        ++ ((accumTexts env.chunks).map fun r => [Act.chunkUpdate r])
        ++ [[.setLoading false], publishActions (reconcile (finalRaw env.chunks))]

/-- Segments of `handleSubmit`: the clears run synchronously with the
start of `handleSearch`, in the same block. -/
def submitSegments (query base : String) (env : Env) : List (List Act) :=
  match invocationSegments query base env with
  | [] => [[.setParsedResults (.arr []), .setParseError none]]
  | s :: rest => ([.setParsedResults (.arr []), .setParseError none] ++ s) :: rest

/-- Big-step semantics of `handleNameClick`: identical to a submission
except that the clicked name is first written into the query input. -/
def handleNameClickRun (name base : String) (env : Env) : List Act :=
  Act.setQuery name :: handleSubmitRun name base env

/-- Deterministic interleaving of two segment lists driven by a choice
sequence: `true` takes the next segment of the first invocation, `false`
of the second; `none` if the choices do not exhaust both lists. Any value
it returns preserves each invocation's program order, which is exactly
what the single-threaded event loop guarantees about two overlapping
invocations suspended at their `await` points. -/
def mergeOf {α : Type} : List Bool → List α → List α → Option (List α)
  | [], [], [] => some []
  | true :: rest, x :: xs, ys => (mergeOf rest xs ys).map (x :: ·)
  | false :: rest, xs, y :: ys => (mergeOf rest xs ys).map (y :: ·)
  | _, _, _ => none

/-! ## Helper lemmas about the embedded primitives -/

theorem dropWhile_head_false {p : Char → Bool} {l : List Char} {c : Char}
    {cs : List Char} (h : l.dropWhile p = c :: cs) : p c = false := by
  induction l with
  | nil => simp at h
  | cons a as ih =>
    by_cases hp : p a
    · rw [List.dropWhile_cons_of_pos hp] at h
      exact ih h
    · rw [List.dropWhile_cons_of_neg hp] at h
      cases h
      simpa using hp

theorem dropTrailing_is_front {p : Char → Bool} (m : List Char) :
    ∃ t, dropTrailing p m ++ t = m := by
  have h : ∃ s, s ++ m.reverse.dropWhile p = m.reverse := by
    induction m.reverse with
    | nil => exact ⟨[], rfl⟩
    | cons a as ih =>
      by_cases hp : p a
      · obtain ⟨s, hs⟩ := ih
        exact ⟨a :: s, by simp [List.dropWhile_cons_of_pos hp, hs]⟩
      · exact ⟨[], by simp [List.dropWhile_cons_of_neg hp]⟩
  obtain ⟨s, hs⟩ := h
  refine ⟨s.reverse, ?_⟩
  have := congrArg List.reverse hs
  simpa [dropTrailing] using this

theorem trimList_head_not_ws {l : List Char} {c : Char} {cs : List Char}
    (h : trimList l = c :: cs) : isJsWs c = false := by
  obtain ⟨t, ht⟩ := dropTrailing_is_front (p := isJsWs) (l.dropWhile isJsWs)
  rw [trimList] at h
  rw [h] at ht
  exact dropWhile_head_false (l := l) ht.symm

theorem jsonWsB_imp_isJsWs {c : Char} (h : jsonWsB c = true) : isJsWs c = true := by
  rw [jsonWsB] at h
  simp only [Bool.or_eq_true, decide_eq_true_eq] at h
  rcases h with ((h | h) | h) | h <;> subst h <;> rfl

theorem skipWs_of_head_not_ws {c : Char} {cs : List Char}
    (h : isJsWs c = false) : skipWs (c :: cs) = c :: cs := by
  have hb : jsonWsB c = false := by
    cases hj : jsonWsB c
    · rfl
    · rw [jsonWsB_imp_isJsWs hj] at h; cases h
  rw [skipWs, List.dropWhile_cons_of_neg (by simp [hb])]

theorem parseNumber_shape {l : List Char} {v : Json} {r : List Char}
    (h : parseNumber l = .ok (v, r)) : ∃ lex, v = .num lex := by
  rw [parseNumber] at h
  split at h
  · cases h; exact ⟨_, rfl⟩
  · cases h

theorem parseMembers_shape {fuel : Nat} {l : List Char}
    {acc : List (String × Json)} {v : Json} {r : List Char}
    (h : parseMembers fuel l acc = .ok (v, r)) : ∃ fs, v = .obj fs := by
  induction fuel generalizing l acc with
  | zero => rw [parseMembers] at h; cases h
  | succ fuel ih =>
    rw [parseMembers.eq_def] at h
    repeat' split at h
    all_goals first
      | (cases h; exact ⟨_, rfl⟩)
      | cases h
      | (simp only [Nat.add_one, Nat.succ.injEq] at *; subst_vars; exact ih h)

theorem parseElems_shape {fuel : Nat} {l : List Char} {acc : List Json}
    {v : Json} {r : List Char}
    (h : parseElems fuel l acc = .ok (v, r)) : ∃ el, v = .arr el := by
  induction fuel generalizing l acc with
  | zero => rw [parseElems] at h; cases h
  | succ fuel ih =>
    rw [parseElems.eq_def] at h
    repeat' split at h
    all_goals first
      | (cases h; exact ⟨_, rfl⟩)
      | cases h
      | (simp only [Nat.add_one, Nat.succ.injEq] at *; subst_vars; exact ih h)

theorem parseValue_arr_head {fuel : Nat} {l : List Char} {el : List Json}
    {r : List Char} (h : parseValue fuel l = .ok (.arr el, r)) :
    ∃ cs, l = '[' :: cs := by
  cases fuel with
  | zero => rw [parseValue] at h; cases h
  | succ fuel =>
    cases l with
    | nil => rw [parseValue] at h; cases h
    | cons c cs =>
      rw [parseValue.eq_def] at h
      repeat' split at h
      all_goals first
        | (cases h; subst_vars; first | exact ⟨_, rfl⟩ | exact ⟨_, by assumption⟩)
        | cases h
        | (obtain ⟨w, hw⟩ := parseMembers_shape h; cases hw)
        | (obtain ⟨w, hw⟩ := parseNumber_shape h; cases hw)
        | (subst_vars; first | exact ⟨_, rfl⟩ | exact ⟨_, by assumption⟩)

theorem parseValue_lbrack_arr {fuel : Nat} {cs : List Char} {v : Json}
    {r : List Char} (h : parseValue fuel ('[' :: cs) = .ok (v, r)) :
    ∃ el, v = .arr el := by
  cases fuel with
  | zero => rw [parseValue] at h; cases h
  | succ fuel =>
    rw [parseValue] at h
    repeat' split at h
    all_goals first
      | exact parseElems_shape h
      | (cases h; exact ⟨_, rfl⟩)
      | simp_all

theorem parseValue_nil_not_ok {fuel : Nat} {out : Json × List Char}
    (h : parseValue fuel [] = .ok out) : False := by
  cases fuel with
  | zero => rw [parseValue] at h; cases h
  | succ fuel => rw [parseValue] at h; cases h

theorem trimmed_parse_arr_head {x : List Char} {el : List Json}
    {rest : List Char} {fuel : Nat}
    (h : parseValue fuel (skipWs (trimList x)) = .ok (.arr el, rest)) :
    ∃ cs, trimList x = '[' :: cs := by
  cases htl : trimList x with
  | nil =>
    rw [htl] at h
    exact absurd h fun hh => parseValue_nil_not_ok hh
  | cons c cs =>
    have hw := trimList_head_not_ws htl
    rw [htl, skipWs_of_head_not_ws hw] at h
    obtain ⟨cs2, hcs⟩ := parseValue_arr_head h
    exact ⟨cs2, hcs⟩

theorem jsonParseE_ok_destruct {s : String} {v : Json}
    (h : jsonParseE s = .ok v) :
    ∃ rest, parseValue (2 * (s.data.length + 1)) (skipWs s.data) = .ok (v, rest) ∧
      skipWs rest = [] := by
  rw [jsonParseE] at h
  split at h
  · cases h
  · split at h
    · cases h
      refine ⟨_, ?_, by assumption⟩
      assumption
    · cases h

theorem cleanText_data (raw : String) :
    (cleanText raw).data = trimList (stripFences (raw.data.length + 1) raw.data) := rfl

theorem jsonParseE_arr_starts {raw : String} {el : List Json}
    (h : jsonParseE (cleanText raw) = .ok (.arr el)) :
    jsStartsWith (cleanText raw) "[" = true := by
  obtain ⟨rest, hpv, -⟩ := jsonParseE_ok_destruct h
  rw [cleanText_data] at hpv
  obtain ⟨cs, hcs⟩ := trimmed_parse_arr_head hpv
  rw [jsStartsWith, cleanText_data, hcs]
  simp [List.isPrefixOf, show "[".data = ['['] from rfl]

theorem reconcile_of_parse_ok {raw : String} {el : List Json}
    (hp : jsonParseE (cleanText raw) = .ok (.arr el))
    (he : jsEndsWith (cleanText raw) "]" = true) :
    reconcile raw = some (.arr el) := by
  rw [reconcile, jsonParseE_arr_starts hp, he]
  simp [hp]

theorem isPrefixOf_single_elim {c : Char} {l : List Char}
    (h : List.isPrefixOf [c] l = true) : ∃ t, l = c :: t := by
  cases l with
  | nil => simp [List.isPrefixOf] at h
  | cons a t =>
    simp only [List.isPrefixOf, Bool.and_eq_true, beq_iff_eq] at h
    exact ⟨t, by rw [h.1]⟩

theorem reconcile_some_arr {raw : String} {v : Json}
    (h : reconcile raw = some v) : ∃ el, v = .arr el := by
  rw [reconcile] at h
  split at h
  · rename_i hcond
    split at h
    · cases h
      rename_i hok
      rw [Bool.and_eq_true] at hcond
      obtain ⟨t, ht⟩ := isPrefixOf_single_elim (by
        have := hcond.1
        rw [jsStartsWith] at this
        simpa [show "[".data = ['['] from rfl] using this)
      obtain ⟨rest, hpv, -⟩ := jsonParseE_ok_destruct hok
      rw [ht] at hpv
      rw [skipWs_of_head_not_ws (by rfl)] at hpv
      exact parseValue_lbrack_arr hpv
    · cases h
  · cases h

theorem runActions_append (st : UIState) (l1 l2 : List Act) :
    runActions st (l1 ++ l2) = runActions (runActions st l1) l2 := by
  simp [runActions, List.foldl_append]

theorem parsedResults_frame {l : List Act} {st : UIState}
    (h : ∀ v, Act.setParsedResults v ∉ l) :
    (runActions st l).parsedResults = st.parsedResults := by
  induction l generalizing st with
  | nil => rfl
  | cons a t ih =>
    have ht : ∀ v, Act.setParsedResults v ∉ t :=
      fun v hv => h v (List.mem_cons_of_mem a hv)
    have hstep : runActions st (a :: t) = runActions (applyAction st a) t := rfl
    rw [hstep, ih ht]
    cases a <;> first
      | rfl
      | exact absurd (List.mem_cons_self _ _) (h _)

theorem parseError_frame {l : List Act} {st : UIState}
    (h : ∀ e, Act.setParseError e ∉ l) :
    (runActions st l).parseError = st.parseError := by
  induction l generalizing st with
  | nil => rfl
  | cons a t ih =>
    have ht : ∀ e, Act.setParseError e ∉ t :=
      fun e hv => h e (List.mem_cons_of_mem a hv)
    have hstep : runActions st (a :: t) = runActions (applyAction st a) t := rfl
    rw [hstep, ih ht]
    cases a <;> first
      | rfl
      | exact absurd (List.mem_cons_self _ _) (h _)

theorem error_frame {l : List Act} {st : UIState}
    (h : ∀ e, Act.setError e ∉ l) :
    (runActions st l).error = st.error := by
  induction l generalizing st with
  | nil => rfl
  | cons a t ih =>
    have ht : ∀ e, Act.setError e ∉ t :=
      fun e hv => h e (List.mem_cons_of_mem a hv)
    have hstep : runActions st (a :: t) = runActions (applyAction st a) t := rfl
    rw [hstep, ih ht]
    cases a <;> first
      | rfl
      | exact absurd (List.mem_cons_self _ _) (h _)

theorem streamActions_only_chunks {chunks : List String} {a : Act}
    (h : a ∈ streamActions chunks) : ∃ s, a = Act.chunkUpdate s := by
  rw [streamActions] at h
  obtain ⟨s, -, hs⟩ := List.mem_map.mp h
  exact ⟨s, hs.symm⟩

theorem handleSearchRun_blank {query : String} (base : String) (env : Env)
    (hq : jsTrim query = "") : handleSearchRun query base env = ([], none) := by
  simp [handleSearchRun, hq]

theorem handleSearchRun_ok {query : String} (base : String) {env : Env} {data : Json}
    (hq : jsTrim query ≠ "") (hf : env.fetch = .ok data)
    (hne : emptyTotal data = false) :
    handleSearchRun query base env =
      (startSegment query base ++
        [.setResults (jsonStringify2 data),
         .modelCall (promptText (jsonStringify2 data))] ++
        streamActions env.chunks ++ [.setLoading false],
       reconcile (finalRaw env.chunks)) := by
  rw [handleSearchRun, if_neg hq, hf]
  simp [hne]

theorem handleSearchRun_empty {query : String} (base : String) {env : Env} {data : Json}
    (hq : jsTrim query ≠ "") (hf : env.fetch = .ok data)
    (het : emptyTotal data = true) :
    handleSearchRun query base env =
      (startSegment query base ++ [.setSummary "No documents found.", .setLoading false],
       none) := by
  rw [handleSearchRun, if_neg hq, hf]
  simp [het]

theorem handleSearchRun_http {query : String} (base : String) {env : Env} {s : String}
    (hq : jsTrim query ≠ "") (hf : env.fetch = .httpError s) :
    handleSearchRun query base env =
      (startSegment query base ++
        [.setError (some (errorMessage s)), .setLoading false], none) := by
  rw [handleSearchRun, if_neg hq, hf]

theorem handleSearchRun_transport {query : String} (base : String) {env : Env} {s : String}
    (hq : jsTrim query ≠ "") (hf : env.fetch = .transportError s) :
    handleSearchRun query base env =
      (startSegment query base ++
        [.setError (some (errorMessage s)), .setLoading false], none) := by
  rw [handleSearchRun, if_neg hq, hf]

theorem handleSearchRun_abort {query : String} (base : String) {env : Env}
    (hq : jsTrim query ≠ "") (hf : env.fetch = .abortError) :
    handleSearchRun query base env =
      (startSegment query base ++ [.setLoading false], none) := by
  rw [handleSearchRun, if_neg hq, hf]

/-- Shape test the spec requires before the result list may be replaced:
an array, at least one of whose elements is a non-null object with a
`summary` field (`null` has its own `Json` constructor, so every
`Json.obj` is a non-null object). -/
def hasSummaryObject (l : List Json) : Bool :=
  l.any fun j =>
    match j with
    | .obj fs => (lookupLast fs "summary").isSome
    | _ => false

/-- Modelled from the spec's words (section 4.1, step 3): the value shape
the spec says must hold before the published result list is replaced —
a non-empty array with at least one summary-bearing object. Defined only
to compare the spec's requirement with the code's behavior; the code
performs no such check. -/
def specRequiredShape : Json → Bool
  | .arr l => !l.isEmpty && hasSummaryObject l
  | _ => false

/-- C1: if the accumulated text cleans up to a well-formed JSON array
ending in `]` that contains a summary-bearing object, the parse block of
`handleSearch` returns exactly the parsed array and the caller publishes
it as the result list (code fences around the text are stripped by the
cleaning step). -/
theorem C1_parse_success_publishes (query base raw : String) (env : Env)
    (data : Json) (el : List Json)
    (hq : jsTrim query ≠ "")
    (hf : env.fetch = .ok data)
    (hne : emptyTotal data = false)
    (hraw : finalRaw env.chunks = raw)
    (hparse : jsonParseE (cleanText raw) = .ok (.arr el))
    (hend : jsEndsWith (cleanText raw) "]" = true)
    (hsum : hasSummaryObject el = true) :
    (handleSearchRun query base env).2 = some (.arr el) ∧
    (runActions initState (handleSubmitRun query base env)).parsedResults = .arr el := by
  have hret : (handleSearchRun query base env).2 = some (.arr el) := by
    rw [handleSearchRun_ok base hq hf hne, hraw]
    exact reconcile_of_parse_ok hparse hend
  refine ⟨hret, ?_⟩
  have hpub : publishActions (handleSearchRun query base env).2 =
      [Act.setParsedResults (.arr el)] := by
    rw [hret]; rfl
  rw [handleSubmitRun, runActions_append, hpub]
  rfl

/-- Witness for C1 at a concrete fenced stream. -/
theorem C1_parse_success_publishes_witness :
    (handleSearchRun "alpha" "http://b"
        ⟨.ok (Json.obj [("total", Json.num "1")]),
         ["```json\n[\x7b\"summary\":\"x\"\x7d]\n```"]⟩).2 =
      some (.arr [Json.obj [("summary", Json.str "x")]]) ∧
    (runActions initState (handleSubmitRun "alpha" "http://b"
        ⟨.ok (Json.obj [("total", Json.num "1")]),
         ["```json\n[\x7b\"summary\":\"x\"\x7d]\n```"]⟩)).parsedResults =
      .arr [Json.obj [("summary", Json.str "x")]] :=
  C1_parse_success_publishes "alpha" "http://b"
    "```json\n[\x7b\"summary\":\"x\"\x7d]\n```"
    ⟨.ok (Json.obj [("total", Json.num "1")]),
     ["```json\n[\x7b\"summary\":\"x\"\x7d]\n```"]⟩
    (Json.obj [("total", Json.num "1")])
    [Json.obj [("summary", Json.str "x")]]
    (by decide) rfl (by rfl) (by rfl) (by rfl) (by rfl) (by rfl)

theorem okTrace_no_setParsedResults {q b : String} {d : Json} {chunks : List String}
    (v : Json) :
    Act.setParsedResults v ∉
      (startSegment q b ++
        [Act.setResults (jsonStringify2 d), Act.modelCall (promptText (jsonStringify2 d))] ++
        streamActions chunks ++ [Act.setLoading false]) := by
  intro hmem
  rcases List.mem_append.mp hmem with h | h
  · rcases List.mem_append.mp h with h | h
    · rcases List.mem_append.mp h with h | h
      · simp [startSegment] at h
      · simp at h
    · obtain ⟨s, hs⟩ := streamActions_only_chunks h
      cases hs
  · simp at h

/-- C3 counterexample: the stream `[{}]` parses to an array whose only
element is an object without a `summary` field; the code nevertheless
publishes it as the new result list, although the spec's required shape
test rejects it. -/
theorem C3_counterexample :
    handleSubmitRun "alpha" "http://b"
        ⟨.ok (Json.obj [("total", Json.num "1")]), ["[\x7b\x7d]"]⟩ =
      (handleSubmitRun "alpha" "http://b"
        ⟨.ok (Json.obj [("total", Json.num "1")]), ["[\x7b\x7d]"]⟩).dropLast ++
      [Act.setParsedResults (Json.arr [Json.obj []])] ∧
    (runActions initState (handleSubmitRun "alpha" "http://b"
        ⟨.ok (Json.obj [("total", Json.num "1")]), ["[\x7b\x7d]"]⟩)).parsedResults =
      Json.arr [Json.obj []] ∧
    specRequiredShape (Json.arr [Json.obj []]) = false :=
  ⟨by rfl, by rfl, by rfl⟩

/-- C3 as amended: after a successful fetch with hits, the parse block's
result alone decides publication — if the probe-and-parse fails the list
stays cleared, and if it succeeds the parsed array replaces the list
unconditionally, with no emptiness or `summary`-field requirement. -/
theorem C3_amended_publish_unconditional (query base raw : String) (env : Env)
    (data : Json)
    (hq : jsTrim query ≠ "")
    (hf : env.fetch = .ok data)
    (hne : emptyTotal data = false)
    (hraw : finalRaw env.chunks = raw) :
    (reconcile raw = none →
      (runActions initState (handleSubmitRun query base env)).parsedResults = .arr []) ∧
    (∀ v, reconcile raw = some v →
      ∃ el, v = .arr el ∧
        (runActions initState (handleSubmitRun query base env)).parsedResults = .arr el) := by
  have hrun := handleSearchRun_ok base hq hf hne
  have hret : (handleSearchRun query base env).2 = reconcile raw := by
    rw [hrun, hraw]
  constructor
  · intro hnone
    have hpub : publishActions (handleSearchRun query base env).2 = [] := by
      rw [hret, hnone]; rfl
    rw [handleSubmitRun, runActions_append, hpub]
    show (runActions initState
      ([Act.setParsedResults (.arr []), Act.setParseError none] ++
        (handleSearchRun query base env).1)).parsedResults = Json.arr []
    rw [runActions_append]
    have hnp : ∀ v, Act.setParsedResults v ∉ (handleSearchRun query base env).1 := by
      intro v hv
      rw [hrun] at hv
      exact okTrace_no_setParsedResults v hv
    rw [parsedResults_frame hnp]
    rfl
  · intro v hv
    obtain ⟨el, hel⟩ := reconcile_some_arr hv
    subst hel
    refine ⟨el, rfl, ?_⟩
    have hpub : publishActions (handleSearchRun query base env).2 =
        [Act.setParsedResults (.arr el)] := by
      rw [hret, hv]; rfl
    rw [handleSubmitRun, runActions_append, hpub]
    rfl

/-- Witness for the amended C3 at a concrete run whose stream parses. -/
theorem C3_amended_publish_unconditional_witness :
    (reconcile "[1]" = none →
      (runActions initState (handleSubmitRun "alpha" "http://b"
        ⟨.ok (Json.obj [("total", Json.num "1")]), ["[1]"]⟩)).parsedResults = .arr []) ∧
    (∀ v, reconcile "[1]" = some v →
      ∃ el, v = .arr el ∧
        (runActions initState (handleSubmitRun "alpha" "http://b"
          ⟨.ok (Json.obj [("total", Json.num "1")]), ["[1]"]⟩)).parsedResults = .arr el) :=
  C3_amended_publish_unconditional "alpha" "http://b" "[1]"
    ⟨.ok (Json.obj [("total", Json.num "1")]), ["[1]"]⟩
    (Json.obj [("total", Json.num "1")])
    (by decide) rfl (by rfl) (by rfl)

theorem searchRun_no_setParseError (query base : String) (env : Env)
    (e : Option String) :
    Act.setParseError e ∉ (handleSearchRun query base env).1 := by
  intro hmem
  by_cases hq : jsTrim query = ""
  · rw [handleSearchRun_blank base env hq] at hmem
    simp at hmem
  · rcases hfe : env.fetch with data | s | s | _
    · by_cases het : emptyTotal data
      · rw [handleSearchRun_empty base hq hfe het] at hmem
        rcases List.mem_append.mp hmem with h | h
        · simp [startSegment] at h
        · simp at h
      · rw [handleSearchRun_ok base hq hfe (by simpa using het)] at hmem
        rcases List.mem_append.mp hmem with h | h
        · rcases List.mem_append.mp h with h | h
          · rcases List.mem_append.mp h with h | h
            · simp [startSegment] at h
            · simp at h
          · obtain ⟨s, hs⟩ := streamActions_only_chunks h
            cases hs
        · simp at h
    · rw [handleSearchRun_http base hq hfe] at hmem
      rcases List.mem_append.mp hmem with h | h
      · simp [startSegment] at h
      · simp at h
    · rw [handleSearchRun_transport base hq hfe] at hmem
      rcases List.mem_append.mp hmem with h | h
      · simp [startSegment] at h
      · simp at h
    · rw [handleSearchRun_abort base hq hfe] at hmem
      rcases List.mem_append.mp hmem with h | h
      · simp [startSegment] at h
      · simp at h

theorem publish_no_setParseError (ret : Option Json) (e : Option String) :
    Act.setParseError e ∉ publishActions ret := by
  intro hmem
  rcases ret with _ | v
  · simp [publishActions] at hmem
  · rw [publishActions] at hmem
    split at hmem
    · simp at hmem
    · simp at hmem

/-- C2: the code never publishes a terminal parse error — for every
query, environment and message, no `setParseError` with a message occurs
anywhere in a submission, and the published `parseError` state stays
`none` (the claim's single terminal `ParseError` is never produced; the
parse failure is only logged to the console). -/
theorem C2_no_parse_error_ever_published (query base : String) (env : Env) :
    (∀ msg, Act.setParseError (some msg) ∉ handleSubmitRun query base env) ∧
    (runActions initState (handleSubmitRun query base env)).parseError = none := by
  constructor
  · intro msg hmem
    rw [handleSubmitRun] at hmem
    rcases List.mem_append.mp hmem with h | h
    · rcases List.mem_append.mp h with h | h
      · simp at h
      · exact searchRun_no_setParseError query base env _ h
    · exact publish_no_setParseError _ _ h
  · rw [handleSubmitRun, List.append_assoc]
    show (runActions initState
      ([Act.setParsedResults (.arr []), Act.setParseError none] ++ _)).parseError = none
    rw [runActions_append, parseError_frame]
    · rfl
    · intro e hmem
      rcases List.mem_append.mp hmem with h | h
      · exact searchRun_no_setParseError query base env _ h
      · exact publish_no_setParseError _ _ h

/-- C7: a search response whose `total` is missing, null or zero makes
`handleSearch` set the fixed summary message and return before the model
is ever invoked; no error and no parse error is produced, distinguishing
the benign empty-hit outcome from the error states. -/
theorem C7_zero_hits_short_circuit (query base : String) (env : Env) (data : Json)
    (hq : jsTrim query ≠ "") (hf : env.fetch = .ok data)
    (het : emptyTotal data = true) :
    handleSearchRun query base env =
      (startSegment query base ++
        [.setSummary "No documents found.", .setLoading false], none) ∧
    (∀ p, Act.modelCall p ∉ (handleSearchRun query base env).1) ∧
    (∀ st, (runActions st (handleSearchRun query base env).1).summary =
        "No documents found." ∧
      (runActions st (handleSearchRun query base env).1).error = none ∧
      (runActions st (handleSearchRun query base env).1).parseError = st.parseError) := by
  have h := handleSearchRun_empty base hq hf het
  refine ⟨h, ?_, ?_⟩
  · intro p hmem
    rw [h] at hmem
    rcases List.mem_append.mp hmem with hm | hm
    · simp [startSegment] at hm
    · simp at hm
  · intro st
    rw [h]
    exact ⟨rfl, rfl, rfl⟩

/-- Witness for C7 at a concrete zero-hit response. -/
theorem C7_zero_hits_short_circuit_witness :
    handleSearchRun "alpha" "http://b" ⟨.ok (Json.obj [("total", Json.num "0")]), []⟩ =
      (startSegment "alpha" "http://b" ++
        [.setSummary "No documents found.", .setLoading false], none) ∧
    (∀ p, Act.modelCall p ∉
      (handleSearchRun "alpha" "http://b"
        ⟨.ok (Json.obj [("total", Json.num "0")]), []⟩).1) ∧
    (∀ st, (runActions st (handleSearchRun "alpha" "http://b"
        ⟨.ok (Json.obj [("total", Json.num "0")]), []⟩).1).summary =
        "No documents found." ∧
      (runActions st (handleSearchRun "alpha" "http://b"
        ⟨.ok (Json.obj [("total", Json.num "0")]), []⟩).1).error = none ∧
      (runActions st (handleSearchRun "alpha" "http://b"
        ⟨.ok (Json.obj [("total", Json.num "0")]), []⟩).1).parseError = st.parseError) :=
  C7_zero_hits_short_circuit "alpha" "http://b"
    ⟨.ok (Json.obj [("total", Json.num "0")]), []⟩
    (Json.obj [("total", Json.num "0")]) (by decide) rfl (by rfl)

/-- C8: a non-ok HTTP status or a transport failure makes `handleSearch`
surface the failure through `setError` (the thrown message, or the fixed
fallback when the message is empty) and stop before the streaming model
call is made. -/
theorem C8_fetch_failure_halts (query base s : String) (env : Env)
    (hq : jsTrim query ≠ "")
    (hf : env.fetch = .httpError s ∨ env.fetch = .transportError s) :
    handleSearchRun query base env =
      (startSegment query base ++
        [.setError (some (errorMessage s)), .setLoading false], none) ∧
    (∀ p, Act.modelCall p ∉ (handleSearchRun query base env).1) ∧
    (∀ st, (runActions st (handleSearchRun query base env).1).error =
      some (errorMessage s)) := by
  have h : handleSearchRun query base env =
      (startSegment query base ++
        [.setError (some (errorMessage s)), .setLoading false], none) := by
    rcases hf with hf | hf
    · exact handleSearchRun_http base hq hf
    · exact handleSearchRun_transport base hq hf
  refine ⟨h, ?_, ?_⟩
  · intro p hmem
    rw [h] at hmem
    rcases List.mem_append.mp hmem with hm | hm
    · simp [startSegment] at hm
    · simp at hm
  · intro st
    rw [h]
    rfl

/-- Witness for C8 at a concrete failing HTTP status. -/
theorem C8_fetch_failure_halts_witness :
    handleSearchRun "alpha" "http://b" ⟨.httpError "Internal Server Error", []⟩ =
      (startSegment "alpha" "http://b" ++
        [.setError (some (errorMessage "Internal Server Error")),
         .setLoading false], none) ∧
    (∀ p, Act.modelCall p ∉
      (handleSearchRun "alpha" "http://b" ⟨.httpError "Internal Server Error", []⟩).1) ∧
    (∀ st, (runActions st (handleSearchRun "alpha" "http://b"
        ⟨.httpError "Internal Server Error", []⟩).1).error =
      some (errorMessage "Internal Server Error")) :=
  C8_fetch_failure_halts "alpha" "http://b" "Internal Server Error"
    ⟨.httpError "Internal Server Error", []⟩ (by decide) (Or.inl rfl)

/-- Recognizer for the `fetch` action. -/
def isFetchReq : Act → Bool
  | .fetchReq _ => true
  | _ => false

theorem chunkUpdates_no_fetch (l : List String) :
    (l.map Act.chunkUpdate).filter isFetchReq = [] := by
  induction l with
  | nil => rfl
  | cons a t ih => simp [isFetchReq, ih]

/-- C9: every non-blank invocation issues exactly one search request —
a GET of `{base}/search?q=<encodeURIComponent(query)>&k=10` — whatever
the outcome; no second request (no retry) ever appears in the trace. -/
theorem C9_single_request_no_retries (query base : String) (env : Env)
    (hq : jsTrim query ≠ "") :
    (handleSearchRun query base env).1.filter isFetchReq =
      [Act.fetchReq (searchUrl base query)] ∧
    searchUrl base query =
      base ++ "/search?q=" ++ encodeURIComponent query ++ "&k=10" := by
  refine ⟨?_, rfl⟩
  have hstart : (startSegment query base).filter isFetchReq =
      [Act.fetchReq (searchUrl base query)] := by
    simp [startSegment, isFetchReq]
  rcases hfe : env.fetch with data | s | s | _
  · by_cases het : emptyTotal data
    · rw [handleSearchRun_empty base hq hfe het]
      simp [List.filter_append, hstart, isFetchReq]
    · rw [handleSearchRun_ok base hq hfe (by simpa using het)]
      simp [List.filter_append, hstart, isFetchReq, streamActions,
        chunkUpdates_no_fetch]
  · rw [handleSearchRun_http base hq hfe]
    simp [List.filter_append, hstart, isFetchReq]
  · rw [handleSearchRun_transport base hq hfe]
    simp [List.filter_append, hstart, isFetchReq]
  · rw [handleSearchRun_abort base hq hfe]
    simp [List.filter_append, hstart, isFetchReq]

/-- Witness for C9 at a concrete query needing URL-encoding. -/
theorem C9_single_request_no_retries_witness :
    (handleSearchRun "hello world" "http://b"
        ⟨.transportError "Failed to fetch", []⟩).1.filter isFetchReq =
      [Act.fetchReq (searchUrl "http://b" "hello world")] ∧
    searchUrl "http://b" "hello world" =
      "http://b" ++ "/search?q=" ++ encodeURIComponent "hello world" ++ "&k=10" :=
  C9_single_request_no_retries "hello world" "http://b"
    ⟨.transportError "Failed to fetch", []⟩ (by decide)

/-- C10: a blank (empty or whitespace-only) query returns before the
abort, the resets and the request — the invocation performs no action at
all, returns `undefined`, and leaves every state field unchanged. -/
theorem C10_blank_query_no_effect (query base : String) (env : Env)
    (hq : jsTrim query = "") :
    handleSearchRun query base env = ([], none) ∧
    (∀ st, runActions st (handleSearchRun query base env).1 = st) := by
  refine ⟨handleSearchRun_blank base env hq, ?_⟩
  intro st
  rw [handleSearchRun_blank base env hq]
  rfl

/-- Witness for C10 at a whitespace-only query. -/
theorem C10_blank_query_no_effect_witness :
    handleSearchRun "  \t " "http://b" ⟨.abortError, []⟩ = ([], none) ∧
    (∀ st, runActions st (handleSearchRun "  \t " "http://b" ⟨.abortError, []⟩).1 = st) :=
  C10_blank_query_no_effect "  \t " "http://b" ⟨.abortError, []⟩ (by decide)

/-- C5: while the stream is still active — here the accumulated text is a
proper prefix of a valid JSON array text — the loop only performs
`setSummary` updates: nothing is published to the result list, no error
and no parse error is set, so every intermediate invalid state is
tolerated silently (the single parse attempt happens only after the
stream has finished, and its `JSON.parse` exception is caught there). -/
theorem C5_active_stream_publishes_nothing (full raw : String) (el : List Json)
    (chunks : List String) (st : UIState)
    (hfull : jsonParseE full = .ok (.arr el))
    (hpre : ∃ t, raw.data ++ t = full.data)
    (hproper : raw ≠ full)
    (hacc : finalRaw chunks = raw) :
    (∀ v, Act.setParsedResults v ∉ streamActions chunks) ∧
    (∀ e, Act.setError e ∉ streamActions chunks) ∧
    (∀ e, Act.setParseError e ∉ streamActions chunks) ∧
    (runActions st (streamActions chunks)).parsedResults = st.parsedResults ∧
    (runActions st (streamActions chunks)).error = st.error ∧
    (runActions st (streamActions chunks)).parseError = st.parseError := by
  refine ⟨?_, ?_, ?_, ?_, ?_, ?_⟩
  · intro v hv
    obtain ⟨s, hs⟩ := streamActions_only_chunks hv
    cases hs
  · intro e he
    obtain ⟨s, hs⟩ := streamActions_only_chunks he
    cases hs
  · intro e he
    obtain ⟨s, hs⟩ := streamActions_only_chunks he
    cases hs
  · exact parsedResults_frame fun v hv => by
      obtain ⟨s, hs⟩ := streamActions_only_chunks hv; cases hs
  · exact error_frame fun e he => by
      obtain ⟨s, hs⟩ := streamActions_only_chunks he; cases hs
  · exact parseError_frame fun e he => by
      obtain ⟨s, hs⟩ := streamActions_only_chunks he; cases hs

/-- Witness for C5 at the proper prefix `[1` of `[1]`. -/
theorem C5_active_stream_publishes_nothing_witness :
    (∀ v, Act.setParsedResults v ∉ streamActions ["[1"]) ∧
    (∀ e, Act.setError e ∉ streamActions ["[1"]) ∧
    (∀ e, Act.setParseError e ∉ streamActions ["[1"]) ∧
    (runActions initState (streamActions ["[1"])).parsedResults =
      initState.parsedResults ∧
    (runActions initState (streamActions ["[1"])).error = initState.error ∧
    (runActions initState (streamActions ["[1"])).parseError =
      initState.parseError :=
  C5_active_stream_publishes_nothing "[1]" "[1" [Json.num "1"] ["[1"] initState
    (by rfl) ⟨[']'], by rfl⟩ (by decide) (by rfl)

theorem foldl_snd_suffix (rest : List String) (s : String) (acc : List String) :
    ∃ t, (rest.foldl (fun a c => (a.1 ++ c, (a.1 ++ c) :: a.2)) (s, acc)).2 =
      t ++ acc := by
  induction rest generalizing s acc with
  | nil => exact ⟨[], rfl⟩
  | cons c cs ih =>
    obtain ⟨t, ht⟩ := ih (s ++ c) ((s ++ c) :: acc)
    refine ⟨t ++ [s ++ c], ?_⟩
    show (cs.foldl (fun a c => (a.1 ++ c, (a.1 ++ c) :: a.2))
      (s ++ c, (s ++ c) :: acc)).2 = (t ++ [s ++ c]) ++ acc
    rw [ht, List.append_assoc, List.singleton_append]

theorem streamActions_cons (c0 : String) (rest : List String) :
    ∃ tail, streamActions (c0 :: rest) =
      Act.chunkUpdate ("" ++ c0) :: tail := by
  obtain ⟨t, ht⟩ := foldl_snd_suffix rest ("" ++ c0) ["" ++ c0]
  refine ⟨(t.reverse).map Act.chunkUpdate, ?_⟩
  rw [streamActions, accumTexts]
  show ((rest.foldl (fun a c => (a.1 ++ c, (a.1 ++ c) :: a.2))
    ("" ++ c0, ["" ++ c0])).2.reverse).map Act.chunkUpdate = _
  rw [ht]
  simp

/-- C6: in a submission whose fetch succeeds with hits and whose stream
produces at least one chunk, the trace splits as `A ++ chunkUpdate r ::
tail` where `A` — the part before the first chunk arrives — contains no
chunk update and, run from any prior state, leaves the published result
list cleared (`[]`) and the parse error reset; `handleNameClick` prefixes
the same trace with `setQuery` and so clears the same way. -/
theorem C6_submission_clears_before_first_chunk (query base : String)
    (env : Env) (data : Json) (c0 : String) (rest : List String)
    (hq : jsTrim query ≠ "") (hf : env.fetch = .ok data)
    (hne : emptyTotal data = false) (hch : env.chunks = c0 :: rest) :
    ∃ A tail r,
      handleSubmitRun query base env = A ++ Act.chunkUpdate r :: tail ∧
      handleNameClickRun query base env =
        (Act.setQuery query :: A) ++ Act.chunkUpdate r :: tail ∧
      (∀ s, Act.chunkUpdate s ∉ A) ∧
      (∀ st, (runActions st A).parsedResults = .arr [] ∧
             (runActions st A).parseError = none) := by
  obtain ⟨tail0, hst⟩ := streamActions_cons c0 rest
  refine ⟨[Act.setParsedResults (.arr []), Act.setParseError none] ++
      startSegment query base ++
      [Act.setResults (jsonStringify2 data),
       Act.modelCall (promptText (jsonStringify2 data))],
    tail0 ++ [Act.setLoading false] ++
      publishActions (reconcile (finalRaw env.chunks)), "" ++ c0, ?_, ?_, ?_, ?_⟩
  · rw [handleSubmitRun, handleSearchRun_ok base hq hf hne, hch, hst]
    simp [List.append_assoc, hch]
  · rw [handleNameClickRun, handleSubmitRun,
      handleSearchRun_ok base hq hf hne, hch, hst]
    simp [List.append_assoc, hch]
  · intro s hmem
    rcases List.mem_append.mp hmem with h | h
    · rcases List.mem_append.mp h with h | h
      · simp at h
      · simp [startSegment] at h
    · simp at h
  · intro st
    exact ⟨rfl, rfl⟩

/-- Witness for C6 at a concrete one-chunk stream. -/
theorem C6_submission_clears_before_first_chunk_witness :
    ∃ A tail r,
      handleSubmitRun "alpha" "http://b"
          ⟨.ok (Json.obj [("total", Json.num "1")]), ["[1]"]⟩ =
        A ++ Act.chunkUpdate r :: tail ∧
      handleNameClickRun "alpha" "http://b"
          ⟨.ok (Json.obj [("total", Json.num "1")]), ["[1]"]⟩ =
        (Act.setQuery "alpha" :: A) ++ Act.chunkUpdate r :: tail ∧
      (∀ s, Act.chunkUpdate s ∉ A) ∧
      (∀ st, (runActions st A).parsedResults = .arr [] ∧
             (runActions st A).parseError = none) :=
  C6_submission_clears_before_first_chunk "alpha" "http://b"
    ⟨.ok (Json.obj [("total", Json.num "1")]), ["[1]"]⟩
    (Json.obj [("total", Json.num "1")]) "[1]" []
    (by decide) rfl (by rfl) (by rfl)

/-- C4 counterexample: a realistic interleaving (each invocation's
segments kept in program order by `mergeOf`) in which query A completes
its fetch and receives its one stream chunk, then query B is submitted —
its first synchronous block aborts the shared controller (flattened index
12) — and only afterwards does A's stream finish: A's publish segment
still runs (index 18) because the source passes the abort signal to
`fetch` only, never to the model stream or to the caller's publish. The
final state shows the cancelled query A's records as the published result
list even though B superseded it. -/
theorem C4_counterexample :
    ∃ merged,
      mergeOf [true, true, true, false, true, true, false, false]
          (submitSegments "alpha" "http://b"
            ⟨.ok (Json.obj [("total", Json.num "1")]),
             ["[\x7b\"summary\":\"A\"\x7d]"]⟩)
          (submitSegments "beta" "http://b" ⟨.httpError "Bad Gateway", []⟩) =
        some merged ∧
      merged.flatten.get? 12 = some Act.abortPrev ∧
      merged.flatten.get? 18 =
        some (Act.setParsedResults (Json.arr [Json.obj [("summary", Json.str "A")]])) ∧
      (runActions initState merged.flatten).parsedResults =
        Json.arr [Json.obj [("summary", Json.str "A")]] :=
  ⟨_, rfl, by rfl, by rfl, by rfl⟩

/-- C4 as amended: cancellation silences a superseded query only when the
abort lands on its in-flight `fetch` (the `AbortError` path performs no
model call, publishes nothing and sets no error); once the stream phase
has begun the superseded invocation runs to completion and can still
publish, as the counterexample shows. -/
theorem C4_amended_abort_only_cancels_fetch (query base : String) (env : Env)
    (hq : jsTrim query ≠ "") (hf : env.fetch = .abortError) :
    handleSearchRun query base env =
      (startSegment query base ++ [.setLoading false], none) ∧
    (∀ p, Act.modelCall p ∉ (handleSearchRun query base env).1) ∧
    (∀ v, Act.setParsedResults v ∉ (handleSearchRun query base env).1) ∧
    (∀ e, Act.setError (some e) ∉ (handleSearchRun query base env).1) := by
  have h := handleSearchRun_abort base hq hf
  refine ⟨h, ?_, ?_, ?_⟩
  · intro p hmem
    rw [h] at hmem
    rcases List.mem_append.mp hmem with hm | hm
    · simp [startSegment] at hm
    · simp at hm
  · intro v hmem
    rw [h] at hmem
    rcases List.mem_append.mp hmem with hm | hm
    · simp [startSegment] at hm
    · simp at hm
  · intro e hmem
    rw [h] at hmem
    rcases List.mem_append.mp hmem with hm | hm
    · simp [startSegment] at hm
    · simp at hm

/-- Witness for the amended C4 at a concrete aborted fetch. -/
theorem C4_amended_abort_only_cancels_fetch_witness :
    handleSearchRun "alpha" "http://b" ⟨.abortError, []⟩ =
      (startSegment "alpha" "http://b" ++ [.setLoading false], none) ∧
    (∀ p, Act.modelCall p ∉
      (handleSearchRun "alpha" "http://b" ⟨.abortError, []⟩).1) ∧
    (∀ v, Act.setParsedResults v ∉
      (handleSearchRun "alpha" "http://b" ⟨.abortError, []⟩).1) ∧
    (∀ e, Act.setError (some e) ∉
      (handleSearchRun "alpha" "http://b" ⟨.abortError, []⟩).1) :=
  C4_amended_abort_only_cancels_fetch "alpha" "http://b" ⟨.abortError, []⟩
    (by decide) rfl
